import Mathlib

/-!
Verification of the goojs `SoftwareRenderer` (software occlusion-culling
rasterizer).  The JavaScript source is embedded shallowly: JS `Number`
arithmetic is modelled over `ℚ` (exact arithmetic), typed-array buffers are
modelled as total functions `ℤ → ℚ`, and each prototype method becomes a Lean
function mirroring the source statement by statement.  Division is total in
`ℚ` (`x / 0 = 0`); in every place the source divides, either the denominator
is provably nonzero or the quotient feeds only unused state (single-pixel
spans), so the embedding is observationally faithful.
-/

/-- A 3-component vector of rationals, standing for the (x, y, z) part of the
camera-space `Vector4` vertices (whose w stays 1 through the clip stage). -/
structure Vec3 where
  x : ℚ
  y : ℚ
  z : ℚ
deriving DecidableEq, Repr

instance : Inhabited Vec3 := ⟨⟨0, 0, 0⟩⟩

/-- Componentwise difference of vectors. -/
def Vec3.subv (a b : Vec3) : Vec3 := ⟨a.x - b.x, a.y - b.y, a.z - b.z⟩

/-- The standard cross product. -/
def Vec3.cross (a b : Vec3) : Vec3 :=
  ⟨a.y * b.z - a.z * b.y, a.z * b.x - a.x * b.z, a.x * b.y - a.y * b.x⟩

/-- The standard dot product. -/
def Vec3.dotv (a b : Vec3) : ℚ := a.x * b.x + a.y * b.y + a.z * b.z

/-- Embeds `SoftwareRenderer.prototype._isBackFacingCameraViewSpace`.
Edges `e1 = v2 - v1`, `e2 = v3 - v1`; the face normal is computed exactly with
the source's component formulas
(`faceNormal[0] = e2[2]*e1[1] - e2[1]*e1[2]`, etc.), then dotted with `v1`;
the triangle is reported back-facing when the dot product is positive. -/
def isBackFacingCameraViewSpace (v1 v2 v3 : Vec3) : Bool :=
  let e1 : Vec3 := ⟨v2.x - v1.x, v2.y - v1.y, v2.z - v1.z⟩
  let e2 : Vec3 := ⟨v3.x - v1.x, v3.y - v1.y, v3.z - v1.z⟩
  let n0 : ℚ := e2.z * e1.y - e2.y * e1.z
  let n1 : ℚ := e2.x * e1.z - e2.z * e1.x
  let n2 : ℚ := e2.y * e1.x - e2.x * e1.y
  decide (n0 * v1.x + n1 * v1.y + n2 * v1.z > 0)

/-- C1 (counterexample): the claim states `_isBackFacingCameraViewSpace v1 v2 v3 = true`
iff `((v3-v1) × (v2-v1)) · v1 > 0`.  At `v1 = (0,0,1)`, `v2 = (1,0,1)`,
`v3 = (0,1,1)` the function returns `true` while
`((v3-v1) × (v2-v1)) · v1 = -1 ≤ 0`, refuting the equivalence. -/
theorem backface_spec_cross_counterexample :
    ¬ (isBackFacingCameraViewSpace ⟨0, 0, 1⟩ ⟨1, 0, 1⟩ ⟨0, 1, 1⟩ = true ↔
        Vec3.dotv
          (Vec3.cross (Vec3.subv ⟨0, 1, 1⟩ ⟨0, 0, 1⟩) (Vec3.subv ⟨1, 0, 1⟩ ⟨0, 0, 1⟩))
          ⟨0, 0, 1⟩ > 0) := by
  intro h
  have hb : isBackFacingCameraViewSpace ⟨0, 0, 1⟩ ⟨1, 0, 1⟩ ⟨0, 1, 1⟩ = true := by
    unfold isBackFacingCameraViewSpace
    norm_num
  have := h.mp hb
  norm_num [Vec3.dotv, Vec3.cross, Vec3.subv] at this

/-- Embeds `SoftwareRenderer.prototype._calculateIntersectionRatio`:
`(origin.z + near) / (origin.z - target.z)`. -/
def calculateIntersectionRatio (origin target : Vec3) (near : ℚ) : ℚ :=
  (origin.z + near) / (origin.z - target.z)

/-- One clipped vertex, as computed in the `case 1` / `case 2` branches of
`_createTrianglesForEntity`: `origin + ratio * (target - origin)` in all three
components. -/
def clipVertex (origin target : Vec3) (near : ℚ) : Vec3 :=
  let ratio := calculateIntersectionRatio origin target near
  ⟨origin.x + ratio * (target.x - origin.x),
   origin.y + ratio * (target.y - origin.y),
   origin.z + ratio * (target.z - origin.z)⟩

/-- Embeds `SoftwareRenderer.prototype._categorizeVertices`: vertex `i` is pushed to
the inside list when `verts[i].z ≤ cameraNear` (`cameraNear` is the
camera-space near-plane z, i.e. `-near`), otherwise to the outside list.
Returns `(outsideIndices, insideIndices)`. -/
def categorizeVertices (verts : List Vec3) (cameraNear : ℚ) : List ℕ × List ℕ :=
  (List.range 3).foldl
    (fun acc i =>
      if (verts.getD i default).z ≤ cameraNear then (acc.1, acc.2 ++ [i])
      else (acc.1 ++ [i], acc.2))
    ([], [])

/-- A triangle of camera-space vertices (`goo/renderer/scanline/Triangle`). -/
structure Tri where
  v1 : Vec3
  v2 : Vec3
  v3 : Vec3
deriving DecidableEq, Repr

/-- The near-plane clip stage of `_createTrianglesForEntity` together with
`_createTriangles`: the `switch (outsideIndices.length)` over the categorized
vertices, producing the list of camera-space triangles handed on to the
projection transform.  Case 0 emits the triangle unchanged, case 3 emits
nothing, case 1 moves the outside vertex onto the near plane and appends a
fourth vertex (two triangles emitted), case 2 moves both outside vertices onto
the near plane (one triangle emitted). -/
def clipTriangleNearPlane (v1 v2 v3 : Vec3) (near : ℚ) : List Tri :=
  let verts : List Vec3 := [v1, v2, v3]
  let cat := categorizeVertices verts (-near)
  let oi := cat.1
  let ii := cat.2
  if oi.length = 0 then [⟨v1, v2, v3⟩]
  else if oi.length = 3 then []
  else if oi.length = 1 then
    let o := oi.getD 0 0
    let i0 := ii.getD 0 0
    let i1 := ii.getD 1 0
    let origin := verts.getD o default
    let newV1 := clipVertex origin (verts.getD i0 default) near
    let newV2 := clipVertex origin (verts.getD i1 default) near
    let verts2 := verts.set o newV1
    [⟨verts2.getD o default, verts2.getD i0 default, newV2⟩,
     ⟨newV2, verts2.getD i0 default, verts2.getD i1 default⟩]
  else
    let o0 := oi.getD 0 0
    let o1 := oi.getD 1 0
    let i0 := ii.getD 0 0
    let verts2 := verts.set o0 (clipVertex (verts.getD o0 default) (verts.getD i0 default) near)
    let verts3 := verts2.set o1 (clipVertex (verts2.getD o1 default) (verts2.getD i0 default) near)
    [⟨verts3.getD 0 default, verts3.getD 1 default, verts3.getD 2 default⟩]

/-- A vertex moved onto the near plane lands exactly at camera-space
`z = -near`, provided the origin is strictly outside and the target inside. -/
lemma clipVertex_z_eq (origin target : Vec3) (near : ℚ)
    (ho : ¬ origin.z ≤ -near) (ht : target.z ≤ -near) :
    (clipVertex origin target near).z = -near := by
  push_neg at ho
  have hne : origin.z - target.z ≠ 0 := by linarith
  simp only [clipVertex, calculateIntersectionRatio]
  field_simp
  ring

/-- C2: for a triangle with exactly one or exactly two vertices outside the
near plane, every vertex of every triangle emitted by the near-plane clip
stage has camera-space `z ≤ -near` (each intersection vertex is
`origin + r * (target - origin)` with `r = (origin.z + near)/(origin.z - target.z)`,
which lands exactly on `z = -near` in exact arithmetic). -/
theorem clip_emits_inside_near_plane (v1 v2 v3 : Vec3) (near : ℚ)
    (hcount : (categorizeVertices [v1, v2, v3] (-near)).1.length = 1 ∨
              (categorizeVertices [v1, v2, v3] (-near)).1.length = 2) :
    ∀ t ∈ clipTriangleNearPlane v1 v2 v3 near,
      t.v1.z ≤ -near ∧ t.v2.z ≤ -near ∧ t.v3.z ≤ -near := by
  have hr3 : List.range 3 = [0, 1, 2] := rfl
  by_cases h1 : v1.z ≤ -near <;> by_cases h2 : v2.z ≤ -near <;>
    by_cases h3 : v3.z ≤ -near
  -- all three inside: zero outside vertices, excluded by the count hypothesis
  · have hcat : categorizeVertices [v1, v2, v3] (-near) = ([], [0, 1, 2]) := by
      simp [categorizeVertices, hr3, h1, h2, h3]
    rw [hcat] at hcount
    simp at hcount
  -- v3 outside
  · intro t ht
    have hcat : categorizeVertices [v1, v2, v3] (-near) = ([2], [0, 1]) := by
      simp [categorizeVertices, hr3, h1, h2, h3]
    rw [clipTriangleNearPlane] at ht
    simp only [hcat] at ht
    simp at ht
    rcases ht with ht | ht <;> subst ht <;> refine ⟨?_, ?_, ?_⟩ <;>
      simp [clipVertex_z_eq _ _ _ h3 h1, clipVertex_z_eq _ _ _ h3 h2, h1, h2]
  -- v2 outside
  · intro t ht
    have hcat : categorizeVertices [v1, v2, v3] (-near) = ([1], [0, 2]) := by
      simp [categorizeVertices, hr3, h1, h2, h3]
    rw [clipTriangleNearPlane] at ht
    simp only [hcat] at ht
    simp at ht
    rcases ht with ht | ht <;> subst ht <;> refine ⟨?_, ?_, ?_⟩ <;>
      simp [clipVertex_z_eq _ _ _ h2 h1, clipVertex_z_eq _ _ _ h2 h3, h1, h3]
  -- v2 and v3 outside
  · intro t ht
    have hcat : categorizeVertices [v1, v2, v3] (-near) = ([1, 2], [0]) := by
      simp [categorizeVertices, hr3, h1, h2, h3]
    rw [clipTriangleNearPlane] at ht
    simp only [hcat] at ht
    simp at ht
    subst ht
    refine ⟨?_, ?_, ?_⟩ <;>
      simp [clipVertex_z_eq _ _ _ h2 h1, clipVertex_z_eq _ _ _ h3 h1, h1]
  -- v1 outside
  · intro t ht
    have hcat : categorizeVertices [v1, v2, v3] (-near) = ([0], [1, 2]) := by
      simp [categorizeVertices, hr3, h1, h2, h3]
    rw [clipTriangleNearPlane] at ht
    simp only [hcat] at ht
    simp at ht
    rcases ht with ht | ht <;> subst ht <;> refine ⟨?_, ?_, ?_⟩ <;>
      simp [clipVertex_z_eq _ _ _ h1 h2, clipVertex_z_eq _ _ _ h1 h3, h2, h3]
  -- v1 and v3 outside
  · intro t ht
    have hcat : categorizeVertices [v1, v2, v3] (-near) = ([0, 2], [1]) := by
      simp [categorizeVertices, hr3, h1, h2, h3]
    rw [clipTriangleNearPlane] at ht
    simp only [hcat] at ht
    simp at ht
    subst ht
    refine ⟨?_, ?_, ?_⟩ <;>
      simp [clipVertex_z_eq _ _ _ h1 h2, clipVertex_z_eq _ _ _ h3 h2, h2]
  -- v1 and v2 outside
  · intro t ht
    have hcat : categorizeVertices [v1, v2, v3] (-near) = ([0, 1], [2]) := by
      simp [categorizeVertices, hr3, h1, h2, h3]
    rw [clipTriangleNearPlane] at ht
    simp only [hcat] at ht
    simp at ht
    subst ht
    refine ⟨?_, ?_, ?_⟩ <;>
      simp [clipVertex_z_eq _ _ _ h1 h3, clipVertex_z_eq _ _ _ h2 h3, h3]
  -- all three outside: excluded by the count hypothesis
  · have hcat : categorizeVertices [v1, v2, v3] (-near) = ([0, 1, 2], []) := by
      simp [categorizeVertices, hr3, h1, h2, h3]
    rw [hcat] at hcount
    simp at hcount

/-- C2 (witness): the spec's near-plane-split scenario, vertices with
`z = (-1/2, -2, -2)` and `near = 1`: exactly one vertex is outside, and every
emitted vertex has `z ≤ -1` (the intersection ratio is `1/3`). -/
theorem clip_emits_inside_near_plane_witness :
    ((categorizeVertices [⟨0, 0, -1/2⟩, ⟨1, 0, -2⟩, ⟨0, 1, -2⟩] (-(1:ℚ))).1.length = 1 ∨
     (categorizeVertices [⟨0, 0, -1/2⟩, ⟨1, 0, -2⟩, ⟨0, 1, -2⟩] (-(1:ℚ))).1.length = 2) ∧
    (∀ t ∈ clipTriangleNearPlane ⟨0, 0, -1/2⟩ ⟨1, 0, -2⟩ ⟨0, 1, -2⟩ 1,
      t.v1.z ≤ -(1:ℚ) ∧ t.v2.z ≤ -(1:ℚ) ∧ t.v3.z ≤ -(1:ℚ)) := by
  have hcount : (categorizeVertices [⟨0, 0, -1/2⟩, ⟨1, 0, -2⟩, ⟨0, 1, -2⟩] (-(1:ℚ))).1.length = 1 ∨
      (categorizeVertices [⟨0, 0, -1/2⟩, ⟨1, 0, -2⟩, ⟨0, 1, -2⟩] (-(1:ℚ))).1.length = 2 := by
    left
    norm_num [categorizeVertices, show List.range 3 = [0, 1, 2] from rfl]
  exact ⟨hcount, clip_emits_inside_near_plane _ _ _ _ hcount⟩

/-- C1 (amended): `_isBackFacingCameraViewSpace v1 v2 v3` returns `true` iff

`((v2-v1) × (v3-v1)) · v1 > 0`, i.e. the face normal the source computes is
`e1 × e2` (equivalently, the test drops the triangle exactly when
`(e2 × e1) · v1` is negative). -/
theorem backface_iff_e1_cross_e2 (v1 v2 v3 : Vec3) :
    isBackFacingCameraViewSpace v1 v2 v3 = true ↔
      Vec3.dotv (Vec3.cross (Vec3.subv v2 v1) (Vec3.subv v3 v1)) v1 > 0 := by
  unfold isBackFacingCameraViewSpace
  rw [decide_eq_true_iff]
  constructor <;> intro h <;>
    · simp only [Vec3.dotv, Vec3.cross, Vec3.subv] at *
      nlinarith [h]

/-- One depth-buffer store with the source's z-test:
`if (depth > depthData[index]) { depthData[index] = depth; }`. -/
def applyZTest (buf : ℤ → ℚ) (idx : ℤ) (d : ℚ) : ℤ → ℚ :=
  fun j => if j = idx then (if d > buf idx then d else buf idx) else buf j

/-- Applying a list of depth writes in order. -/
def applyWrites (buf : ℤ → ℚ) (ws : List (ℤ × ℚ)) : ℤ → ℚ :=
  ws.foldl (fun b wr => applyZTest b wr.1 wr.2) buf

/-- The pixel loop at the end of `_fillPixels`: `n` iterations, each storing
`depth` at `index` under the z-test, then `index++; depth += inc`. -/
def fillSpan (buf : ℤ → ℚ) (index : ℤ) (depth inc : ℚ) : ℕ → (ℤ → ℚ)
  | 0 => buf
  | n + 1 => fillSpan (applyZTest buf index depth) (index + 1) (depth + inc) inc n

/-- The write events of the `_fillPixels` pixel loop; they do not depend on
the buffer contents. -/
def spanWrites (index : ℤ) (depth inc : ℚ) : ℕ → List (ℤ × ℚ)
  | 0 => []
  | n + 1 => (index, depth) :: spanWrites (index + 1) (depth + inc) inc n

/-- The tolerated depth bound `1.0000001` of the numeric-warning checks in
`_fillPixels` and `_isScanlineOccluded`. -/
def depthTolerance : ℚ := 10000001 / 10000000

/-- Embeds `SoftwareRenderer.prototype._fillPixels` for a `w`-pixel-wide buffer with
`clipX = w - 1`.  Returns the updated depth buffer and the list of depth
values reported via `console.error` (the numeric warnings).  Mirrors the
source: early-out guard, the two warning checks (log only), horizontal
clipping with proportional depth interpolation (left side first, then the
right side using the updated left values), then the closed-interval pixel
loop.  Division is total over `ℚ`; the only denominator that can vanish is
`rightX - leftX` on a single-pixel span, where the quotient only feeds the
unused final `depth += inc`. -/
def fillPixels (w clipX : ℤ) (buf : ℤ → ℚ) (leftX rightX y : ℤ) (leftZ rightZ : ℚ) :
    (ℤ → ℚ) × List ℚ :=
  if rightX < 0 ∨ leftX > clipX ∨ rightX < leftX then (buf, [])
  else
    let warns : List ℚ :=
      (if leftZ < 0 ∨ leftZ > depthTolerance then [leftZ] else []) ++
      (if rightZ < 0 ∨ rightZ > depthTolerance then [rightZ] else [])
    let t1 : ℚ := -(leftX : ℚ) / ((rightX : ℚ) - (leftX : ℚ) + 1)
    let leftZ1 : ℚ := if leftX < 0 then (1 - t1) * leftZ + t1 * rightZ else leftZ
    let leftX1 : ℤ := if leftX < 0 then 0 else leftX
    let diff : ℤ := rightX - clipX + 1
    let t2 : ℚ := (diff : ℚ) / ((rightX : ℚ) - (leftX1 : ℚ) + 1)
    let rightZ1 : ℚ := if diff > 0 then (1 - t2) * rightZ + t2 * leftZ1 else rightZ
    let rightX1 : ℤ := if diff > 0 then clipX else rightX
    let index : ℤ := y * w + leftX1
    let depthIncrement : ℚ := (rightZ1 - leftZ1) / ((rightX1 : ℚ) - (leftX1 : ℚ))
    (fillSpan buf index leftZ1 depthIncrement (rightX1 - leftX1 + 1).toNat, warns)

/-- The write events of a `_fillPixels` call (buffer-independent). -/
def fillPixelsWrites (w clipX : ℤ) (leftX rightX y : ℤ) (leftZ rightZ : ℚ) :
    List (ℤ × ℚ) :=
  if rightX < 0 ∨ leftX > clipX ∨ rightX < leftX then []
  else
    let t1 : ℚ := -(leftX : ℚ) / ((rightX : ℚ) - (leftX : ℚ) + 1)
    let leftZ1 : ℚ := if leftX < 0 then (1 - t1) * leftZ + t1 * rightZ else leftZ
    let leftX1 : ℤ := if leftX < 0 then 0 else leftX
    let diff : ℤ := rightX - clipX + 1
    let t2 : ℚ := (diff : ℚ) / ((rightX : ℚ) - (leftX1 : ℚ) + 1)
    let rightZ1 : ℚ := if diff > 0 then (1 - t2) * rightZ + t2 * leftZ1 else rightZ
    let rightX1 : ℤ := if diff > 0 then clipX else rightX
    let index : ℤ := y * w + leftX1
    let depthIncrement : ℚ := (rightZ1 - leftZ1) / ((rightX1 : ℚ) - (leftX1 : ℚ))
    spanWrites index leftZ1 depthIncrement (rightX1 - leftX1 + 1).toNat

/-- The probe loop at the end of `_isScanlineOccluded`: at each pixel, if the
probed depth is strictly greater than the stored depth the span is visible
(early exit `false`); otherwise continue.  Also returns the list of
depth-buffer indices actually read. -/
def probeSpan (buf : ℤ → ℚ) (index : ℤ) (depth inc : ℚ) : ℕ → Bool × List ℤ
  | 0 => (true, [])
  | n + 1 =>
    if depth > buf index then (false, [index])
    else
      let r := probeSpan buf (index + 1) (depth + inc) inc n
      (r.1, index :: r.2)

/-- Embeds `SoftwareRenderer.prototype._isScanlineOccluded`.  Structure identical to
`_fillPixels` (the source says it is a 99% copy), but read-only: returns
whether the span is occluded, the list of depth-buffer indices read, and the
logged numeric warnings.  The guard returns occluded immediately, before any
read or log. -/
def isScanlineOccluded (w clipX : ℤ) (buf : ℤ → ℚ) (leftX rightX y : ℤ)
    (leftZ rightZ : ℚ) : Bool × List ℤ × List ℚ :=
  if rightX < 0 ∨ leftX > clipX ∨ rightX < leftX then (true, [], [])
  else
    let warns : List ℚ :=
      (if leftZ < 0 ∨ leftZ > depthTolerance then [leftZ] else []) ++
      (if rightZ < 0 ∨ rightZ > depthTolerance then [rightZ] else [])
    let t1 : ℚ := -(leftX : ℚ) / ((rightX : ℚ) - (leftX : ℚ) + 1)
    let leftZ1 : ℚ := if leftX < 0 then (1 - t1) * leftZ + t1 * rightZ else leftZ
    let leftX1 : ℤ := if leftX < 0 then 0 else leftX
    let diff : ℤ := rightX - clipX + 1
    let t2 : ℚ := (diff : ℚ) / ((rightX : ℚ) - (leftX1 : ℚ) + 1)
    let rightZ1 : ℚ := if diff > 0 then (1 - t2) * rightZ + t2 * leftZ1 else rightZ
    let rightX1 : ℤ := if diff > 0 then clipX else rightX
    let index : ℤ := y * w + leftX1
    let depthIncrement : ℚ := (rightZ1 - leftZ1) / ((rightX1 : ℚ) - (leftX1 : ℚ))
    let pr := probeSpan buf index leftZ1 depthIncrement (rightX1 - leftX1 + 1).toNat
    (pr.1, pr.2, warns)

lemma fillSpan_eq_applyWrites (n : ℕ) :
    ∀ (buf : ℤ → ℚ) (idx : ℤ) (d inc : ℚ),
      fillSpan buf idx d inc n = applyWrites buf (spanWrites idx d inc n) := by
  induction n with
  | zero => intro buf idx d inc; rfl
  | succ n ih =>
    intro buf idx d inc
    simp only [fillSpan, spanWrites, applyWrites, List.foldl_cons]
    exact ih _ _ _ _

lemma fillPixels_fst_eq_applyWrites (w clipX : ℤ) (buf : ℤ → ℚ)
    (leftX rightX y : ℤ) (leftZ rightZ : ℚ) :
    (fillPixels w clipX buf leftX rightX y leftZ rightZ).1 =
      applyWrites buf (fillPixelsWrites w clipX leftX rightX y leftZ rightZ) := by
  unfold fillPixels fillPixelsWrites
  by_cases hg : rightX < 0 ∨ leftX > clipX ∨ rightX < leftX
  · simp [hg, applyWrites]
  · simp only [hg, if_false]
    exact fillSpan_eq_applyWrites _ _ _ _ _

lemma applyZTest_le (buf : ℤ → ℚ) (idx : ℤ) (d : ℚ) (p : ℤ) :
    buf p ≤ applyZTest buf idx d p := by
  unfold applyZTest
  split_ifs with h1 h2
  · subst h1; exact le_of_lt h2
  · subst h1; exact le_refl _
  · exact le_refl _

lemma ztest_eq_max (b d : ℚ) : (if d > b then d else b) = max b d := by
  rcases le_or_lt d b with hc | hc
  · rw [if_neg (not_lt_of_le hc), max_eq_left hc]
  · rw [if_pos hc, max_eq_right (le_of_lt hc)]

lemma applyZTest_mono {b1 b2 : ℤ → ℚ} (h : ∀ p, b1 p ≤ b2 p) (idx : ℤ) (d : ℚ)
    (p : ℤ) : applyZTest b1 idx d p ≤ applyZTest b2 idx d p := by
  unfold applyZTest
  by_cases hp : p = idx
  · rw [if_pos hp, if_pos hp, ztest_eq_max, ztest_eq_max]
    exact max_le_max (h idx) (le_refl d)
  · rw [if_neg hp, if_neg hp]
    exact h p

lemma le_applyWrites (ws : List (ℤ × ℚ)) :
    ∀ (buf : ℤ → ℚ) (p : ℤ), buf p ≤ applyWrites buf ws p := by
  induction ws with
  | nil => intro buf p; exact le_refl _
  | cons wr ws ih =>
    intro buf p
    calc buf p ≤ applyZTest buf wr.1 wr.2 p := applyZTest_le _ _ _ _
      _ ≤ applyWrites (applyZTest buf wr.1 wr.2) ws p := ih _ _
      _ = applyWrites buf (wr :: ws) p := rfl

lemma applyWrites_mono (ws : List (ℤ × ℚ)) :
    ∀ {b1 b2 : ℤ → ℚ}, (∀ p, b1 p ≤ b2 p) →
      ∀ p, applyWrites b1 ws p ≤ applyWrites b2 ws p := by
  induction ws with
  | nil => intro b1 b2 h p; exact h p
  | cons wr ws ih =>
    intro b1 b2 h p
    exact ih (fun q => applyZTest_mono h wr.1 wr.2 q) p

lemma applyWrites_sublist {ws1 ws2 : List (ℤ × ℚ)} (h : ws1.Sublist ws2) :
    ∀ (buf : ℤ → ℚ) (p : ℤ), applyWrites buf ws1 p ≤ applyWrites buf ws2 p := by
  induction h with
  | slnil => intro buf p; exact le_refl _
  | cons wr h ih =>
    intro buf p
    calc applyWrites buf _ p ≤ applyWrites buf _ p := ih buf p
      _ ≤ applyWrites (applyZTest buf wr.1 wr.2) _ p :=
        applyWrites_mono _ (fun q => applyZTest_le buf wr.1 wr.2 q) p
  | cons₂ wr h ih => intro buf p; exact ih _ p

/-- The occlusion-probe result of the candidate's bound: abstracting the two
occlusion modules (their files are outside this translation unit). -/
structure Camera where
  near : ℚ
deriving DecidableEq, Repr

/-- The state built by the `SoftwareRenderer` constructor: dimensions, clip
bounds, camera, the live depth buffer and the clear buffer. -/
structure Renderer where
  width : ℤ
  height : ℤ
  clipX : ℤ
  clipY : ℤ
  camera : Option Camera
  depthData : ℤ → ℚ
  depthClear : ℤ → ℚ

/-- The field assignments of the `SoftwareRenderer` constructor: the
parameters stored verbatim, `clipX = width - 1`, `clipY = height - 1`, the
zero-initialized depth buffer and the zeroed clear buffer. -/
def rendererFields (width height : ℤ) (camera : Option Camera) : Renderer :=
  { width := width
    height := height
    clipX := width - 1
    clipY := height - 1
    camera := camera
    depthData := fun _ => 0
    depthClear := fun _ => 0 }

/-- The `SoftwareRenderer` constructor.  It performs no validation of its
parameters, but `new ArrayBuffer(colorBytes + depthBytes * 2)` (and the typed
array views over it) throws a RangeError when the requested length
`numOfPixels * 12` is negative, i.e. exactly when `width * height < 0`; in
every other case construction completes with the fields of
`rendererFields`. -/
def mkSoftwareRenderer (width height : ℤ) (camera : Option Camera) :
    Except String Renderer :=
  if width * height < 0 then Except.error "RangeError"
  else Except.ok (rendererFields width height camera)

/-- Embeds `SoftwareRenderer.prototype._clearDepthData`: copy the clear buffer over
the depth buffer. -/
def clearDepthData (r : Renderer) : Renderer :=
  { r with depthData := r.depthClear }

/-- The depth writes of a render list: each entity in order contributes the
writes of its triangles (`_createTrianglesForEntity` and the rasterization
never read the depth buffer, so an entity's write events are a function of the
entity alone; `writesOf` abstracts that pipeline, `fillPixels_fst_eq_applyWrites`
shows the pixel-filling stage has exactly this write-event form). -/
def writesList {E : Type} (writesOf : E → List (ℤ × ℚ)) : List E → List (ℤ × ℚ)
  | [] => []
  | e :: rest => writesOf e ++ writesList writesOf rest

/-- Embeds `SoftwareRenderer.prototype.render`: clear the depth data, then rasterize
each entity's triangles in order, each pixel store going through the z-test
(`applyZTest`). -/
def render {E : Type} (writesOf : E → List (ℤ × ℚ)) (r : Renderer)
    (renderList : List E) : Renderer :=
  let r1 := clearDepthData r
  { r1 with depthData := applyWrites r1.depthData (writesList writesOf renderList) }

lemma writesList_sublist {E : Type} (writesOf : E → List (ℤ × ℚ))
    {A B : List E} (h : A.Sublist B) :
    (writesList writesOf A).Sublist (writesList writesOf B) := by
  induction h with
  | slnil => exact List.Sublist.refl _
  | cons e h ih =>
    exact ih.trans (List.sublist_append_right _ _)
  | cons₂ e h ih =>
    exact ih.append_left _

/-- C5: (i) a `_fillPixels` call equals applying its buffer-independent write
events through the z-test, and (ii) rendering a sublist of an occluder list
produces pointwise smaller-or-equal depth everywhere: adding occluders can
only raise stored depth. -/
theorem render_monotone_under_sublist :
    (∀ (w clipX : ℤ) (buf : ℤ → ℚ) (leftX rightX y : ℤ) (leftZ rightZ : ℚ),
        (fillPixels w clipX buf leftX rightX y leftZ rightZ).1 =
          applyWrites buf (fillPixelsWrites w clipX leftX rightX y leftZ rightZ)) ∧
    (∀ (E : Type) (writesOf : E → List (ℤ × ℚ)) (r : Renderer) (A B : List E),
        A.Sublist B → ∀ p,
          (render writesOf r A).depthData p ≤ (render writesOf r B).depthData p) := by
  constructor
  · exact fillPixels_fst_eq_applyWrites
  · intro E writesOf r A B h p
    exact applyWrites_sublist (writesList_sublist writesOf h) _ _

/-- C5 (witness): concrete renderer, occluder lists `[7] ⊆ [7, 8]` with a
concrete write pipeline; the depth after rendering the sublist is pointwise
below the depth after rendering the full list. -/
theorem render_monotone_under_sublist_witness :
    ([7] : List ℕ).Sublist [7, 8] ∧
    (∀ p, (render (fun n => [((0 : ℤ), (n : ℚ))])
             (rendererFields 4 4 none) [7]).depthData p ≤
          (render (fun n => [((0 : ℤ), (n : ℚ))])
             (rendererFields 4 4 none) [7, 8]).depthData p) := by
  have hsub : ([7] : List ℕ).Sublist [7, 8] :=
    List.Sublist.cons₂ 7 (List.nil_sublist [8])
  refine ⟨hsub, ?_⟩
  exact render_monotone_under_sublist.2 ℕ (fun n => [((0 : ℤ), (n : ℚ))])
    (rendererFields 4 4 none) [7] [7, 8] hsub

/-- C6 (counterexample): constructing with width 0, height 0 and no camera
(all invalid per the claim) completes normally and yields a renderer holding
those parameters (`clipX = -1`); no ConfigError is reported at
construction. -/
theorem constructor_accepts_invalid_counterexample :
    mkSoftwareRenderer 0 0 none = Except.ok (rendererFields 0 0 none) ∧
    (rendererFields 0 0 none).width = 0 ∧
    (rendererFields 0 0 none).clipX = -1 ∧
    (rendererFields 0 0 none).camera = none := by
  refine ⟨?_, rfl, rfl, rfl⟩
  norm_num [mkSoftwareRenderer]

/-- C6 (amended): the constructor performs no validation and never reports a
ConfigError: whenever `width * height ≥ 0` (including width 0 or height 0, a
missing camera, and any `near`) it completes normally with the parameters
stored verbatim (`clipX = width - 1`, `clipY = height - 1`, zeroed buffers);
when `width * height < 0` it fails only with the incidental RangeError thrown
by the negative typed-array allocation. -/
theorem constructor_no_validation (width height : ℤ) (camera : Option Camera) :
    (0 ≤ width * height →
      mkSoftwareRenderer width height camera =
        Except.ok (rendererFields width height camera) ∧
      (rendererFields width height camera).width = width ∧
      (rendererFields width height camera).height = height ∧
      (rendererFields width height camera).clipX = width - 1 ∧
      (rendererFields width height camera).clipY = height - 1 ∧
      (rendererFields width height camera).camera = camera ∧
      (∀ i, (rendererFields width height camera).depthData i = 0) ∧
      (∀ i, (rendererFields width height camera).depthClear i = 0)) ∧
    (width * height < 0 →
      mkSoftwareRenderer width height camera = Except.error "RangeError") := by
  constructor
  · intro hwh
    refine ⟨?_, rfl, rfl, rfl, rfl, rfl, fun _ => rfl, fun _ => rfl⟩
    rw [mkSoftwareRenderer, if_neg (by omega)]
  · intro hwh
    rw [mkSoftwareRenderer, if_pos hwh]

/-- C6 (witness): both constructor outcomes at concrete parameters: width 0,
height 0 with no camera constructs normally, and width -1, height 1 hits the
RangeError of the negative allocation. -/
theorem constructor_no_validation_witness :
    (0 ≤ (0 : ℤ) * 0 ∧
      mkSoftwareRenderer 0 0 none = Except.ok (rendererFields 0 0 none)) ∧
    ((-1 : ℤ) * 1 < 0 ∧
      mkSoftwareRenderer (-1) 1 none = Except.error "RangeError") :=
  ⟨⟨by norm_num, ((constructor_no_validation 0 0 none).1 (by norm_num)).1⟩,
   ⟨by norm_num, (constructor_no_validation (-1) 1 none).2 (by norm_num)⟩⟩

/-- C7: after `render` with an empty occluder list, every depth cell is `0` —
both directly after construction (any renderer the constructor returns) and
after an arbitrary earlier frame (`render` first copies the zeroed clear
buffer over the depth data, and an empty list contributes no writes). -/
theorem render_empty_clears_depth (w h : ℤ) (cam : Option Camera) (E : Type)
    (writesOf : E → List (ℤ × ℚ)) (prior : List E) (i : ℤ) (r : Renderer)
    (hmk : mkSoftwareRenderer w h cam = Except.ok r) :
    (render writesOf r ([] : List E)).depthData i = 0 ∧
    (render writesOf (render writesOf r prior) ([] : List E)).depthData i = 0 := by
  have hr : r = rendererFields w h cam := by
    rw [mkSoftwareRenderer] at hmk
    split_ifs at hmk
    exact (Except.ok.inj hmk).symm
  subst hr
  constructor <;>
    simp [render, clearDepthData, writesList, applyWrites, rendererFields]

/-- C7 (witness): an 8x8 renderer constructed normally; after `render []`
(directly, and after a prior nonempty frame) cell 5 reads 0. -/
theorem render_empty_clears_depth_witness :
    mkSoftwareRenderer 8 8 none = Except.ok (rendererFields 8 8 none) ∧
    (render (fun n => [((0 : ℤ), (n : ℚ))]) (rendererFields 8 8 none)
        ([] : List ℕ)).depthData 5 = 0 ∧
    (render (fun n => [((0 : ℤ), (n : ℚ))])
        (render (fun n => [((0 : ℤ), (n : ℚ))]) (rendererFields 8 8 none) [3])
        ([] : List ℕ)).depthData 5 = 0 := by
  have hmk : mkSoftwareRenderer 8 8 none = Except.ok (rendererFields 8 8 none) := by
    norm_num [mkSoftwareRenderer]
  have h := render_empty_clears_depth 8 8 none ℕ (fun n => [((0 : ℤ), (n : ℚ))])
    [3] 5 (rendererFields 8 8 none) hmk
  exact ⟨hmk, h.1, h.2⟩

/-- A `goo/renderer/scanline/Edge` after coordinate rounding: integer y
endpoints ordered `y0 ≤ y1` by construction in the source, rational x and
(inverted) z endpoint values. -/
structure Edge where
  x0 : ℚ
  y0 : ℤ
  z0 : ℚ
  x1 : ℚ
  y1 : ℤ
  z1 : ℚ
deriving DecidableEq, Repr

/-- Embeds `goo/renderer/scanline/EdgeData`: the per-scanline interpolation state
produced by `_edgePreRenderProcess`. -/
structure EdgeData where
  startLine : ℤ
  stopLine : ℤ
  longX : ℚ
  shortX : ℚ
  longZ : ℚ
  shortZ : ℚ
  longXInc : ℚ
  shortXInc : ℚ
  longZInc : ℚ
  shortZInc : ℚ
deriving DecidableEq, Repr

/-- Embeds `SoftwareRenderer.prototype._edgePreRenderProcess`: early exit when the
short edge has no y-extent; otherwise build interpolants (advancing the long
edge to the short edge's starting y), clip `startLine` up to 0 (advancing the
interpolants accordingly) and `stopLine` down to `clipY`. -/
def edgePreRenderProcess (clipY : ℤ) (longEdge shortEdge : Edge) :
    Option EdgeData :=
  let shortEdgeDeltaY : ℤ := shortEdge.y1 - shortEdge.y0
  if shortEdgeDeltaY ≤ 0 then none
  else
    let longEdgeDeltaY : ℤ := longEdge.y1 - longEdge.y0
    let longEdgeDeltaX : ℚ := longEdge.x1 - longEdge.x0
    let shortEdgeDeltaX : ℚ := shortEdge.x1 - shortEdge.x0
    let longStartZ : ℚ := longEdge.z0
    let shortStartZ : ℚ := shortEdge.z0
    let longEdgeDeltaZ : ℚ := longEdge.z1 - longStartZ
    let shortEdgeDeltaZ : ℚ := shortEdge.z1 - shortStartZ
    let longStartCoeff : ℚ := ((shortEdge.y0 - longEdge.y0 : ℤ) : ℚ) / (longEdgeDeltaY : ℚ)
    let longX : ℚ := longEdge.x0 + longEdgeDeltaX * longStartCoeff
    let longZ : ℚ := longStartZ + longEdgeDeltaZ * longStartCoeff
    let longXinc : ℚ := longEdgeDeltaX / (longEdgeDeltaY : ℚ)
    let longZinc : ℚ := longEdgeDeltaZ / (longEdgeDeltaY : ℚ)
    let shortX : ℚ := shortEdge.x0
    let shortZ : ℚ := shortStartZ
    let shortXinc : ℚ := shortEdgeDeltaX / (shortEdgeDeltaY : ℚ)
    let shortZinc : ℚ := shortEdgeDeltaZ / (shortEdgeDeltaY : ℚ)
    let startLine : ℤ := shortEdge.y0
    let stopLine : ℤ := shortEdge.y1
    let longX2 : ℚ := if startLine < 0 then longX + (-(startLine : ℚ)) * longXinc else longX
    let shortX2 : ℚ := if startLine < 0 then shortX + (-(startLine : ℚ)) * shortXinc else shortX
    let longZ2 : ℚ := if startLine < 0 then longZ + (-(startLine : ℚ)) * longZinc else longZ
    let shortZ2 : ℚ := if startLine < 0 then shortZ + (-(startLine : ℚ)) * shortZinc else shortZ
    let startLine2 : ℤ := if startLine < 0 then 0 else startLine
    let stopLine2 : ℤ := if stopLine > clipY then clipY else stopLine
    some ⟨startLine2, stopLine2, longX2, shortX2, longZ2, shortZ2,
      longXinc, shortXinc, longZinc, shortZinc⟩

lemma spanWrites_fst_bound (n : ℕ) :
    ∀ (idx : ℤ) (d inc : ℚ), ∀ wr ∈ spanWrites idx d inc n,
      idx ≤ wr.1 ∧ wr.1 < idx + n := by
  induction n with
  | zero => intro idx d inc wr hwr; simp [spanWrites] at hwr
  | succ n ih =>
    intro idx d inc wr hwr
    simp only [spanWrites, List.mem_cons] at hwr
    rcases hwr with h | h
    · subst h
      refine ⟨le_refl _, ?_⟩
      push_cast
      omega
    · obtain ⟨h1, h2⟩ := ih _ _ _ wr h
      push_cast at h2 ⊢
      omega

lemma probeSpan_reads_bound (buf : ℤ → ℚ) (n : ℕ) :
    ∀ (idx : ℤ) (d inc : ℚ), ∀ i ∈ (probeSpan buf idx d inc n).2,
      idx ≤ i ∧ i < idx + n := by
  induction n with
  | zero => intro idx d inc i hi; simp [probeSpan] at hi
  | succ n ih =>
    intro idx d inc i hi
    simp only [probeSpan] at hi
    by_cases hc : d > buf idx
    · rw [if_pos hc] at hi
      simp at hi
      subst hi
      refine ⟨le_refl _, ?_⟩
      push_cast
      omega
    · rw [if_neg hc] at hi
      simp only [List.mem_cons] at hi
      rcases hi with h | h
      · subst h
        refine ⟨le_refl _, ?_⟩
        push_cast
        omega
      · obtain ⟨h1, h2⟩ := ih _ _ _ i h
        push_cast at h2 ⊢
        omega

lemma clamped_span_bounds (w h y a b idx2 : ℤ) (n : ℕ)
    (hw : 1 ≤ w) (hy0 : 0 ≤ y) (hy1 : y ≤ h - 1)
    (ha0 : 0 ≤ a) (hb : b ≤ w - 1)
    (hn : (n : ℤ) ≤ b - a + 1 ∨ n = 0)
    (hlo : y * w + a ≤ idx2) (hhi : idx2 < y * w + a + n) :
    0 ≤ idx2 ∧ idx2 < w * h := by
  have h1 : 0 ≤ y * w := mul_nonneg hy0 (by omega)
  have h2 : w * (y + 1) ≤ w * h := mul_le_mul_of_nonneg_left (by omega) (by omega)
  have h3 : y * w = w * y := mul_comm y w
  rcases hn with hn | hn
  · constructor <;> nlinarith
  · rw [hn] at hhi
    push_cast at hhi
    omega

/-- C8: (i) `_edgePreRenderProcess` clamps the produced scanline range into
`[0, clipY]`; (ii) with `clipX = w - 1`, `1 ≤ w` and a scanline
`y ∈ [0, h-1]`, every depth-buffer index written by `_fillPixels` — after its
empty-span guard and the horizontal clamping of `leftX` to 0 and `rightX` to
`clipX` — lies in `[0, w*h)`; (iii) likewise every index read by
`_isScanlineOccluded`. -/
theorem depth_accesses_in_bounds :
    (∀ (clipY : ℤ) (longEdge shortEdge : Edge) (ed : EdgeData),
        edgePreRenderProcess clipY longEdge shortEdge = some ed →
        0 ≤ ed.startLine ∧ ed.stopLine ≤ clipY) ∧
    (∀ (w h leftX rightX y : ℤ) (leftZ rightZ : ℚ),
        1 ≤ w → 0 ≤ y → y ≤ h - 1 →
        ∀ wr ∈ fillPixelsWrites w (w - 1) leftX rightX y leftZ rightZ,
          0 ≤ wr.1 ∧ wr.1 < w * h) ∧
    (∀ (w h leftX rightX y : ℤ) (buf : ℤ → ℚ) (leftZ rightZ : ℚ),
        1 ≤ w → 0 ≤ y → y ≤ h - 1 →
        ∀ i ∈ (isScanlineOccluded w (w - 1) buf leftX rightX y leftZ rightZ).2.1,
          0 ≤ i ∧ i < w * h) := by
  refine ⟨?_, ?_, ?_⟩
  · intro clipY longEdge shortEdge ed hsome
    simp only [edgePreRenderProcess] at hsome
    split_ifs at hsome with hdy hs1 hs2
    all_goals first
      | exact Option.noConfusion hsome
      | (obtain rfl := Option.some.inj hsome
         refine ⟨?_, ?_⟩ <;> dsimp only <;> omega)
  · intro w h leftX rightX y leftZ rightZ hw hy0 hy1 wr hwr
    by_cases hg : rightX < 0 ∨ leftX > w - 1 ∨ rightX < leftX
    · simp [fillPixelsWrites, hg] at hwr
    · simp only [fillPixelsWrites, if_neg hg] at hwr
      obtain ⟨hlo, hhi⟩ := spanWrites_fst_bound _ _ _ _ wr hwr
      push_neg at hg
      refine clamped_span_bounds w h y (if leftX < 0 then 0 else leftX)
        (if rightX - (w - 1) + 1 > 0 then w - 1 else rightX) wr.1 _
        hw hy0 hy1 ?_ ?_ ?_ hlo hhi
      · split_ifs <;> omega
      · split_ifs <;> omega
      · rcases le_or_lt 0 ((if rightX - (w - 1) + 1 > 0 then w - 1 else rightX) -
            (if leftX < 0 then 0 else leftX) + 1) with hc | hc
        · left; rw [Int.toNat_of_nonneg hc]
        · right; rw [Int.toNat_eq_zero]; omega
  · intro w h leftX rightX y buf leftZ rightZ hw hy0 hy1 i hi
    by_cases hg : rightX < 0 ∨ leftX > w - 1 ∨ rightX < leftX
    · simp [isScanlineOccluded, hg] at hi
    · simp only [isScanlineOccluded, if_neg hg] at hi
      obtain ⟨hlo, hhi⟩ := probeSpan_reads_bound buf _ _ _ _ i hi
      push_neg at hg
      refine clamped_span_bounds w h y (if leftX < 0 then 0 else leftX)
        (if rightX - (w - 1) + 1 > 0 then w - 1 else rightX) i _
        hw hy0 hy1 ?_ ?_ ?_ hlo hhi
      · split_ifs <;> omega
      · split_ifs <;> omega
      · rcases le_or_lt 0 ((if rightX - (w - 1) + 1 > 0 then w - 1 else rightX) -
            (if leftX < 0 then 0 else leftX) + 1) with hc | hc
        · left; rw [Int.toNat_of_nonneg hc]
        · right; rw [Int.toNat_eq_zero]; omega

/-- C8 (witness): a concrete 4x4 buffer, an edge pair crossing the top of the
screen, and a span overflowing both horizontal borders: the produced scanline
range is inside `[0, 3]` and every index written on line 2 is inside
`[0, 16)`. -/
theorem depth_accesses_in_bounds_witness :
    (0 ≤ (EdgeData.startLine ⟨0, 1, 0, 0, 0, 0, 0, 1/2, 0, 0⟩) ∧
     (EdgeData.stopLine ⟨0, 1, 0, 0, 0, 0, 0, 1/2, 0, 0⟩) ≤ 1) ∧
    (∀ wr ∈ fillPixelsWrites 4 3 (-1) 5 2 0 1, 0 ≤ wr.1 ∧ wr.1 < 4 * 4) ∧
    (∀ i ∈ (isScanlineOccluded 4 3 (fun _ => 0) (-1) 5 2 0 1).2.1,
      0 ≤ i ∧ i < 4 * 4) := by
  refine ⟨?_, ?_, ?_⟩
  · exact depth_accesses_in_bounds.1 1 ⟨0, 0, 0, 0, 2, 0⟩ ⟨0, 0, 0, 1, 2, 0⟩
      ⟨0, 1, 0, 0, 0, 0, 0, 1/2, 0, 0⟩ (by norm_num [edgePreRenderProcess])
  · intro wr hwr
    exact depth_accesses_in_bounds.2.1 4 4 (-1) 5 2 0 1 (by norm_num)
      (by norm_num) (by norm_num) wr hwr
  · intro i hi
    exact depth_accesses_in_bounds.2.2 4 4 (-1) 5 2 (fun _ => 0) 0 1 (by norm_num)
      (by norm_num) (by norm_num) i hi

lemma fillSpan_at_lt (n : ℕ) :
    ∀ (buf : ℤ → ℚ) (idx : ℤ) (d inc : ℚ) (j : ℤ), j < idx →
      fillSpan buf idx d inc n j = buf j := by
  induction n with
  | zero => intro buf idx d inc j hj; rfl
  | succ n ih =>
    intro buf idx d inc j hj
    simp only [fillSpan]
    rw [ih _ _ _ _ _ (by omega)]
    unfold applyZTest
    rw [if_neg (by omega)]

lemma fillSpan_first (n : ℕ) (hn : 1 ≤ n) (buf : ℤ → ℚ) (idx : ℤ) (d inc : ℚ) :
    fillSpan buf idx d inc n idx = if d > buf idx then d else buf idx := by
  obtain ⟨m, rfl⟩ : ∃ m, n = m + 1 := ⟨n - 1, by omega⟩
  simp only [fillSpan]
  rw [fillSpan_at_lt _ _ _ _ _ _ (by omega)]
  unfold applyZTest
  rw [if_pos rfl]

/-- C3 (counterexample): `_fillPixels` on a single-pixel span with depth 2
(outside `[0, 1.0000001]`): the value is logged (twice, once per endpoint)
but *not* clamped — the raw value 2 is written into the depth buffer. -/
theorem fillPixels_no_clamp_counterexample :
    (2 : ℚ) > depthTolerance ∧
    (fillPixels 4 3 (fun _ => 0) 0 0 0 2 2).2 = [2, 2] ∧
    (fillPixels 4 3 (fun _ => 0) 0 0 0 2 2).1 0 = 2 := by
  refine ⟨by norm_num [depthTolerance], ?_, ?_⟩ <;>
    norm_num [fillPixels, depthTolerance, fillSpan, applyZTest]

lemma fillSpan_at (n : ℕ) :
    ∀ (buf : ℤ → ℚ) (idx : ℤ) (d inc : ℚ) (k : ℕ), k < n →
      fillSpan buf idx d inc n (idx + (k : ℤ)) =
        (if d + (k : ℚ) * inc > buf (idx + (k : ℤ)) then d + (k : ℚ) * inc
         else buf (idx + (k : ℤ))) := by
  induction n with
  | zero => intro buf idx d inc k hk; exact absurd hk (by omega)
  | succ n ih =>
    intro buf idx d inc k hk
    cases k with
    | zero =>
      have h0 : idx + ((0 : ℕ) : ℤ) = idx := by norm_num
      have hd0 : d + ((0 : ℕ) : ℚ) * inc = d := by norm_num
      rw [h0, hd0]
      exact fillSpan_first (n + 1) (by omega) buf idx d inc
    | succ k =>
      have hidx : idx + ((k + 1 : ℕ) : ℤ) = (idx + 1) + (k : ℤ) := by
        push_cast; ring
      rw [hidx]
      simp only [fillSpan]
      rw [ih (applyZTest buf idx d) (idx + 1) (d + inc) inc k (by omega)]
      have hz : applyZTest buf idx d ((idx + 1) + (k : ℤ)) =
          buf ((idx + 1) + (k : ℤ)) := by
        unfold applyZTest
        rw [if_neg (by omega)]
      rw [hz]
      have hd : d + inc + (k : ℚ) * inc = d + ((k + 1 : ℕ) : ℚ) * inc := by
        push_cast; ring
      rw [hd]

lemma probeSpan_first_visible (n : ℕ) (hn : 1 ≤ n) (buf : ℤ → ℚ) (idx : ℤ)
    (d inc : ℚ) (hd : d > buf idx) : (probeSpan buf idx d inc n).1 = false := by
  obtain ⟨m, rfl⟩ : ∃ m, n = m + 1 := ⟨n - 1, by omega⟩
  simp [probeSpan, hd]

/-- C3 (amended): when a scanline's left or right depth value outside
`[0, 1.0000001]` reaches `_fillPixels` or `_isScanlineOccluded` past the span
guard, it is logged by both routines, but it is not clamped: on a span
needing no horizontal clipping (`leftX ≥ 0` and `rightX < clipX`)
`_fillPixels` stores the raw left value at the first pixel and the raw right
value at the last pixel under the max z-test, and `_isScanlineOccluded`'s
first-pixel comparison uses the raw left value (reporting the span visible
whenever it exceeds the stored depth); the operation continues without
raising any error. -/
theorem outOfRange_depth_logged_not_clamped
    (w clipX : ℤ) (buf : ℤ → ℚ) (leftX rightX y : ℤ) (leftZ rightZ : ℚ)
    (hg : ¬(rightX < 0 ∨ leftX > clipX ∨ rightX < leftX)) :
    ((leftZ < 0 ∨ leftZ > depthTolerance) →
      leftZ ∈ (fillPixels w clipX buf leftX rightX y leftZ rightZ).2 ∧
      leftZ ∈ (isScanlineOccluded w clipX buf leftX rightX y leftZ rightZ).2.2) ∧
    ((rightZ < 0 ∨ rightZ > depthTolerance) →
      rightZ ∈ (fillPixels w clipX buf leftX rightX y leftZ rightZ).2 ∧
      rightZ ∈ (isScanlineOccluded w clipX buf leftX rightX y leftZ rightZ).2.2) ∧
    (0 ≤ leftX → rightX - clipX + 1 ≤ 0 →
      ((fillPixels w clipX buf leftX rightX y leftZ rightZ).1 (y * w + leftX) =
        (if leftZ > buf (y * w + leftX) then leftZ else buf (y * w + leftX))) ∧
      (leftX < rightX →
        (fillPixels w clipX buf leftX rightX y leftZ rightZ).1 (y * w + rightX) =
          (if rightZ > buf (y * w + rightX) then rightZ
           else buf (y * w + rightX))) ∧
      (leftZ > buf (y * w + leftX) →
        (isScanlineOccluded w clipX buf leftX rightX y leftZ rightZ).1 = false)) := by
  have hg' := hg
  push_neg at hg'
  obtain ⟨hg1, hg2, hg3⟩ := hg'
  refine ⟨?_, ?_, ?_⟩
  · intro hout
    constructor
    · simp only [fillPixels, if_neg hg]
      simp [hout]
    · simp only [isScanlineOccluded, if_neg hg]
      simp [hout]
  · intro hout
    constructor
    · simp only [fillPixels, if_neg hg]
      simp [hout]
    · simp only [isScanlineOccluded, if_neg hg]
      simp [hout]
  · intro hleft hnoclip
    have hnl : ¬ leftX < 0 := by omega
    have hnd : ¬ rightX - clipX + 1 > 0 := by omega
    have hn1 : 1 ≤ (rightX - leftX + 1).toNat := by omega
    refine ⟨?_, ?_, ?_⟩
    · simp only [fillPixels, if_neg hg, if_neg hnl, if_neg hnd]
      exact fillSpan_first _ hn1 buf _ leftZ _
    · intro hlr
      simp only [fillPixels, if_neg hg, if_neg hnl, if_neg hnd]
      have hk : y * w + rightX = (y * w + leftX) + ((rightX - leftX).toNat : ℤ) := by
        omega
      rw [hk, fillSpan_at _ _ _ _ _ _ (by omega)]
      have h1 : ((rightX - leftX).toNat : ℤ) = rightX - leftX :=
        Int.toNat_of_nonneg (by omega)
      have hq : ((rightX - leftX).toNat : ℚ) = (rightX : ℚ) - (leftX : ℚ) := by
        rw [← Int.cast_natCast (R := ℚ), h1, Int.cast_sub]
      have hne : (rightX : ℚ) - (leftX : ℚ) ≠ 0 := by
        have : (leftX : ℚ) < (rightX : ℚ) := by exact_mod_cast hlr
        linarith
      have hdz : leftZ + ((rightX - leftX).toNat : ℚ) *
          ((rightZ - leftZ) / ((rightX : ℚ) - (leftX : ℚ))) = rightZ := by
        rw [hq]
        field_simp
      rw [hdz]
    · intro hvis
      simp only [isScanlineOccluded, if_neg hg, if_neg hnl, if_neg hnd]
      exact probeSpan_first_visible _ hn1 buf _ leftZ _ hvis

/-- C3 (witness): concrete instantiation of the amended statement on a 4-wide
buffer holding depth 1 everywhere, span `[0, 2]` on line 0 with left depth 2
and right depth -1 (both out of range): both values are logged by both
routines, the raw 2 is stored at pixel 0, the raw -1 loses the z-test at
pixel 2 (which keeps 1), and the probe reports the span visible. -/
theorem outOfRange_depth_logged_not_clamped_witness :
    (¬((2 : ℤ) < 0 ∨ (0 : ℤ) > 3 ∨ (2 : ℤ) < 2 - 2)) ∧
    (((2 : ℚ) < 0 ∨ (2 : ℚ) > depthTolerance) →
      (2 : ℚ) ∈ (fillPixels 4 3 (fun _ => 1) 0 2 0 2 (-1)).2 ∧
      (2 : ℚ) ∈ (isScanlineOccluded 4 3 (fun _ => 1) 0 2 0 2 (-1)).2.2) ∧
    (((-1 : ℚ) < 0 ∨ (-1 : ℚ) > depthTolerance) →
      (-1 : ℚ) ∈ (fillPixels 4 3 (fun _ => 1) 0 2 0 2 (-1)).2 ∧
      (-1 : ℚ) ∈ (isScanlineOccluded 4 3 (fun _ => 1) 0 2 0 2 (-1)).2.2) ∧
    ((0 : ℤ) ≤ 0 → (2 : ℤ) - 3 + 1 ≤ 0 →
      ((fillPixels 4 3 (fun _ => 1) 0 2 0 2 (-1)).1 (0 * 4 + 0) =
        (if (2 : ℚ) > (fun _ => (1 : ℚ)) ((0 : ℤ) * 4 + 0) then (2 : ℚ)
         else (fun _ => (1 : ℚ)) ((0 : ℤ) * 4 + 0))) ∧
      ((0 : ℤ) < 2 →
        (fillPixels 4 3 (fun _ => 1) 0 2 0 2 (-1)).1 (0 * 4 + 2) =
          (if (-1 : ℚ) > (fun _ => (1 : ℚ)) ((0 : ℤ) * 4 + 2) then (-1 : ℚ)
           else (fun _ => (1 : ℚ)) ((0 : ℤ) * 4 + 2))) ∧
      ((2 : ℚ) > (fun _ => (1 : ℚ)) ((0 : ℤ) * 4 + 0) →
        (isScanlineOccluded 4 3 (fun _ => 1) 0 2 0 2 (-1)).1 = false)) := by
  have hmain := outOfRange_depth_logged_not_clamped 4 3 (fun _ => 1) 0 2 0 2 (-1)
    (by norm_num)
  exact ⟨by norm_num, hmain.1, hmain.2.1, hmain.2.2⟩

/-- The two modelled bound classes tested by `performOcclusionCulling`
(`instanceof BoundingSphere` / `instanceof BoundingBox`), plus any other
value of `modelBound` (matching neither test). -/
inductive ModelBound
  | boundingSphere
  | boundingBox
  | otherBound
deriving DecidableEq, Repr

/-- An entity as consumed by `performOcclusionCulling`: its
`meshRendererComponent.cullMode`, its `meshDataComponent.modelBound` kind, and
a tag distinguishing entities. -/
structure Entity where
  cullMode : String
  modelBound : ModelBound
  tag : ℕ
deriving DecidableEq, Repr


/-- Embeds `SoftwareRenderer.prototype.performOcclusionCulling`.  The two occlusion
modules live in other files and are abstracted as boolean-valued probe
functions.  Returns `(visibleEntities, probedEntities)`: the second component
records every entity for which one of the occlusion modules was invoked.  For
an entity not flagged `NeverOcclusionCull`, `cull` models the local variable
of the source (`none` = `undefined` when neither `instanceof` test matches);
the entity is pushed as visible when `!cull` is truthy, i.e. when `cull` is
not `some true`.  An entity flagged `NeverOcclusionCull` is pushed as visible
without probing. -/
def performOcclusionCulling (sphereCull boxCull : Entity → Bool) :
    List Entity → List Entity × List Entity
  | [] => ([], [])
  | e :: rest =>
    let acc := performOcclusionCulling sphereCull boxCull rest
    if e.cullMode ≠ "NeverOcclusionCull" then
      let cull : Option Bool :=
        if e.modelBound = ModelBound.boundingSphere then some (sphereCull e)
        else if e.modelBound = ModelBound.boundingBox then some (boxCull e)
        else none
      let probed : List Entity :=
        if e.modelBound = ModelBound.boundingSphere ∨
            e.modelBound = ModelBound.boundingBox
        then e :: acc.2 else acc.2
      if cull.getD false = false then (e :: acc.1, probed) else (acc.1, probed)
    else (e :: acc.1, acc.2)

lemma performOcclusionCulling_visible_sublist (sphereCull boxCull : Entity → Bool)
    (l : List Entity) :
    (performOcclusionCulling sphereCull boxCull l).1.Sublist l := by
  induction l with
  | nil => exact List.Sublist.refl _
  | cons e rest ih =>
    simp only [performOcclusionCulling]
    split_ifs <;> first | exact ih.cons₂ e | exact ih.cons e

lemma performOcclusionCulling_never_mem_visible (sphereCull boxCull : Entity → Bool)
    (l : List Entity) (e : Entity) (he : e ∈ l)
    (hm : e.cullMode = "NeverOcclusionCull") :
    e ∈ (performOcclusionCulling sphereCull boxCull l).1 := by
  induction l with
  | nil => simp at he
  | cons a rest ih =>
    simp only [performOcclusionCulling]
    rcases List.mem_cons.mp he with rfl | he2
    · rw [if_neg (by simp [hm])]
      exact List.mem_cons_self _ _
    · have hmem := ih he2
      split_ifs <;> simp [hmem]

lemma performOcclusionCulling_other_mem_visible (sphereCull boxCull : Entity → Bool)
    (l : List Entity) (e : Entity) (he : e ∈ l)
    (hb : e.modelBound = ModelBound.otherBound) :
    e ∈ (performOcclusionCulling sphereCull boxCull l).1 := by
  induction l with
  | nil => simp at he
  | cons a rest ih =>
    simp only [performOcclusionCulling]
    rcases List.mem_cons.mp he with rfl | he2
    · split_ifs <;> simp_all
    · have hmem := ih he2
      split_ifs <;> simp [hmem]

lemma performOcclusionCulling_probed_cullMode (sphereCull boxCull : Entity → Bool)
    (l : List Entity) (e : Entity)
    (he : e ∈ (performOcclusionCulling sphereCull boxCull l).2) :
    e.cullMode ≠ "NeverOcclusionCull" := by
  induction l with
  | nil => simp [performOcclusionCulling] at he
  | cons a rest ih =>
    simp only [performOcclusionCulling] at he
    split_ifs at he <;>
      dsimp only at he <;>
      (try simp only [List.mem_cons] at he) <;>
      (try rcases he with rfl | he) <;>
      first | assumption | exact ih he

lemma performOcclusionCulling_probed_bound (sphereCull boxCull : Entity → Bool)
    (l : List Entity) (e : Entity)
    (he : e ∈ (performOcclusionCulling sphereCull boxCull l).2) :
    e.modelBound = ModelBound.boundingSphere ∨
      e.modelBound = ModelBound.boundingBox := by
  induction l with
  | nil => simp [performOcclusionCulling] at he
  | cons a rest ih =>
    simp only [performOcclusionCulling] at he
    split_ifs at he <;>
      dsimp only at he <;>
      (try simp only [List.mem_cons] at he) <;>
      (try rcases he with rfl | he) <;>
      first | assumption | exact ih he

/-- C4: `performOcclusionCulling` returns the visible entities in input order
(the visible list is a sublist of the input), every entity flagged
`NeverOcclusionCull` is in the returned list, and no occlusion probe runs for
such an entity (every probed entity is not so flagged). -/
theorem occlusionCulling_order_and_neverCull (sphereCull boxCull : Entity → Bool)
    (renderList : List Entity) :
    (performOcclusionCulling sphereCull boxCull renderList).1.Sublist renderList ∧
    (∀ e ∈ renderList, e.cullMode = "NeverOcclusionCull" →
      e ∈ (performOcclusionCulling sphereCull boxCull renderList).1) ∧
    (∀ e ∈ (performOcclusionCulling sphereCull boxCull renderList).2,
      e.cullMode ≠ "NeverOcclusionCull") :=
  ⟨performOcclusionCulling_visible_sublist _ _ _,
   fun e he hm => performOcclusionCulling_never_mem_visible _ _ _ e he hm,
   fun e he => performOcclusionCulling_probed_cullMode _ _ _ e he⟩

/-- C4 (witness): a never-cull sphere entity ahead of a probed-and-culled
sphere entity: the visible list is a sublist of the input and the never-cull
entity is visible. -/
theorem occlusionCulling_order_and_neverCull_witness :
    ((performOcclusionCulling (fun _ => true) (fun _ => true)
        [⟨"NeverOcclusionCull", ModelBound.boundingSphere, 0⟩,
         ⟨"Dynamic", ModelBound.boundingSphere, 1⟩]).1.Sublist
      [⟨"NeverOcclusionCull", ModelBound.boundingSphere, 0⟩,
       ⟨"Dynamic", ModelBound.boundingSphere, 1⟩]) ∧
    (⟨"NeverOcclusionCull", ModelBound.boundingSphere, 0⟩ : Entity) ∈
      (performOcclusionCulling (fun _ => true) (fun _ => true)
        [⟨"NeverOcclusionCull", ModelBound.boundingSphere, 0⟩,
         ⟨"Dynamic", ModelBound.boundingSphere, 1⟩]).1 := by
  refine ⟨(occlusionCulling_order_and_neverCull _ _ _).1, ?_⟩
  exact (occlusionCulling_order_and_neverCull _ _ _).2.1 _ (by simp) rfl

/-- C10: an entity not flagged `NeverOcclusionCull` whose `modelBound` matches
neither `BoundingSphere` nor `BoundingBox` is always in the visible list, and
no occlusion module runs for it (it never enters the probed list): the `cull`
variable stays `undefined` and `if (!cull)` pushes the entity. -/
theorem unknownBound_visible_unprobed (sphereCull boxCull : Entity → Bool)
    (renderList : List Entity) (e : Entity) (he : e ∈ renderList)
    (hb : e.modelBound = ModelBound.otherBound)
    (hm : e.cullMode ≠ "NeverOcclusionCull") :
    e ∈ (performOcclusionCulling sphereCull boxCull renderList).1 ∧
    e ∉ (performOcclusionCulling sphereCull boxCull renderList).2 := by
  refine ⟨performOcclusionCulling_other_mem_visible _ _ _ e he hb, fun hp => ?_⟩
  rcases performOcclusionCulling_probed_bound _ _ _ e hp with h | h <;>
    rw [hb] at h <;> exact ModelBound.noConfusion h

/-- C10 (witness): a single entity with an unrecognized bound kind and probes
that would cull everything: it is still visible and never probed. -/
theorem unknownBound_visible_unprobed_witness :
    (⟨"Dynamic", ModelBound.otherBound, 2⟩ : Entity) ∈
      (performOcclusionCulling (fun _ => true) (fun _ => true)
        [⟨"Dynamic", ModelBound.otherBound, 2⟩]).1 ∧
    (⟨"Dynamic", ModelBound.otherBound, 2⟩ : Entity) ∉
      (performOcclusionCulling (fun _ => true) (fun _ => true)
        [⟨"Dynamic", ModelBound.otherBound, 2⟩]).2 :=
  unknownBound_visible_unprobed (fun _ => true) (fun _ => true)
    [⟨"Dynamic", ModelBound.otherBound, 2⟩] ⟨"Dynamic", ModelBound.otherBound, 2⟩
    (by simp) rfl (by simp)

